import Mathlib

/-!
Shallow embedding of the reactor in `events.py` (classes `LoopContext` and
`EventLoop`).  Consumers are identified by natural numbers; file objects
(descriptors) are natural numbers; singleton names are strings.  Python
dictionaries are modelled as insertion-ordered association lists, Python
lists as Lean lists appended at the tail (so `list.pop()` takes the last
element, `list.remove(x)` erases the first occurrence).

Python exceptions are modelled by the `PyErr` type: every fallible
operation returns `Option PyErr × EventLoop`, the state component holding
all mutations performed before the raise (CPython mutates objects in
place, so side effects before an exception persist).

`LoopContext` objects are mutable and shared between the loop's `contexts`
dictionary and the consumer that holds the handle, so they live in a heap
(`EventLoop.heap`) addressed by allocation index (`EventLoop.nextCtx`);
the loop's `contexts` dictionary maps a consumer to the address of its
current context.

Consumer callback behaviour (which callbacks raise, which descriptors a
consumer registers in `startup`) is a parameter (`Behavior`); the trace
field records every call into consumer code, every log line and every
wake byte sent on the control channel.
-/

set_option autoImplicit false

/-- A Python exception, as far as the reactor can observe one. -/
inductive PyErr where
  | keyError
  | typeError
  | attributeError (attr : String)
  | valueError (line : String)
  deriving DecidableEq, Repr

/-- Observable events: calls into consumer code, log lines, wake bytes. -/
inductive Ev where
  | startupCall (c : Nat)
  | shutdownCall (c : Nat)
  | eventCall (c : Nat) (fileobj : Nat)
  | notifyCall (c : Nat) (msg : String)
  | logError (what : String)
  | logWarning (what : String)
  | wakeSent
  deriving DecidableEq, Repr

/-- The mutable fields of a `LoopContext` object (events.py lines 43-46). -/
structure Ctx where
  consumer : Nat
  evicted : Bool
  deriving DecidableEq, Repr

/-- Lookup in an insertion-ordered Python dict (first match). -/
def alookup {α β : Type} [DecidableEq α] : List (α × β) → α → Option β
  | [], _ => none
  | (k, v) :: t, a => if k = a then some v else alookup t a

/-- Python dict assignment: replace in place if the key is present,
append otherwise. -/
def ainsert {α β : Type} [DecidableEq α] : List (α × β) → α → β → List (α × β)
  | [], a, b => [(a, b)]
  | (k, v) :: t, a, b => if k = a then (a, b) :: t else (k, v) :: ainsert t a b

/-- Python `del d[k]` / `d.pop(k)`: remove the entry with the key. -/
def aerase {α β : Type} [DecidableEq α] : List (α × β) → α → List (α × β)
  | [], _ => []
  | (k, v) :: t, a => if k = a then t else (k, v) :: aerase t a

/-- Set the `evicted` flag of the context object stored at address `cid`
(the Python statement `ctx.evicted = True`). -/
def markEvicted (h : List (Nat × Ctx)) (cid : Nat) : List (Nat × Ctx) :=
  h.map (fun p => if p.1 = cid then (p.1, { p.2 with evicted := true }) else p)

/-- The descriptor number of the reactor-side control channel endpoint
(`self.ctrl_r`). -/
def ctrl_r : Nat := 0

/-- The descriptor number of the outside control channel endpoint
(`self.ctrl_w`); it is never registered with the selector. -/
def ctrl_w : Nat := 1

/-- The state of an `EventLoop` object (events.py lines 90-119), plus the
context heap and the observable trace of the model. -/
structure EventLoop where
  selector : List Nat
  consumers : List (Nat × Nat)
  singletons : List (String × Nat)
  contexts : List (Nat × Nat)
  heap : List (Nat × Ctx)
  nextCtx : Nat
  startables : List Nat
  stoppables : List Nat
  notifiables : List (Nat × String)
  closed : Bool
  trace : List Ev
  deriving DecidableEq, Repr

/-- `EventLoop.__init__`: only `ctrl_r` is registered with the selector. -/
def EventLoop.init : EventLoop :=
  { selector := [ctrl_r], consumers := [], singletons := [], contexts := []
    heap := [], nextCtx := 0, startables := [], stoppables := []
    notifiables := [], closed := false, trace := [] }

/-- What each consumer's callbacks do: which calls raise, and which
descriptors `startup` registers through its context. -/
structure Behavior where
  startupFails : Nat → Bool
  shutdownFails : Nat → Bool
  eventFails : Nat → Bool
  notifyFails : Nat → String → Bool
  startupRegs : Nat → List Nat

/-- A behaviour in which no callback ever raises and no descriptors are
registered. -/
def Behavior.quiet : Behavior :=
  { startupFails := fun _ => false, shutdownFails := fun _ => false
    eventFails := fun _ => false, notifyFails := fun _ _ => false
    startupRegs := fun _ => [] }

/-- `LoopContext.register` (events.py lines 48-52).  The selector raises
`KeyError` when the fileobj is already registered. -/
def LoopContext.register (s : EventLoop) (cid : Nat) (fileobj : Nat) :
    Option PyErr × EventLoop :=
  match alookup s.heap cid with
  | none => (some PyErr.keyError, s)
  | some ctx =>
    if ctx.evicted then (none, s)
    else if fileobj ∈ s.selector then (some PyErr.keyError, s)
    else (none, { s with selector := s.selector ++ [fileobj]
                         consumers := ainsert s.consumers fileobj ctx.consumer })

/-- `LoopContext.modify` (events.py lines 54-57).  The selector raises
`KeyError` when the fileobj is not registered; the mask and data are not
modelled, so a successful modify leaves the state unchanged. -/
def LoopContext.modify (s : EventLoop) (cid : Nat) (fileobj : Nat) :
    Option PyErr × EventLoop :=
  match alookup s.heap cid with
  | none => (some PyErr.keyError, s)
  | some ctx =>
    if ctx.evicted then (none, s)
    else if fileobj ∈ s.selector then (none, s)
    else (some PyErr.keyError, s)

/-- `LoopContext.unregister` (events.py lines 59-63). -/
def LoopContext.unregister (s : EventLoop) (cid : Nat) (fileobj : Nat) :
    Option PyErr × EventLoop :=
  match alookup s.heap cid with
  | none => (some PyErr.keyError, s)
  | some ctx =>
    if ctx.evicted then (none, s)
    else if fileobj ∈ s.selector then
      let s1 := { s with selector := s.selector.erase fileobj }
      match alookup s1.consumers fileobj with
      | some _ => (none, { s1 with consumers := aerase s1.consumers fileobj })
      | none => (some PyErr.keyError, s1)
    else (some PyErr.keyError, s)

/-- `LoopContext.shut_me_down` (events.py lines 65-73): no-op once evicted
or once the loop is closed (silently in both cases); otherwise appends the
consumer to `stoppables` and sends a wake byte. -/
def LoopContext.shut_me_down (s : EventLoop) (cid : Nat) : EventLoop :=
  match alookup s.heap cid with
  | none => s
  | some ctx =>
    if ctx.evicted then s
    else if s.closed then s
    else { s with stoppables := s.stoppables ++ [ctx.consumer]
                  trace := s.trace ++ [Ev.wakeSent] }

/-- `LoopContext.notify_me` (events.py lines 75-86): no-op once evicted;
after close it logs a warning and drops the message; otherwise appends to
`notifiables` and sends a wake byte. -/
def LoopContext.notify_me (s : EventLoop) (cid : Nat) (msg : String) : EventLoop :=
  match alookup s.heap cid with
  | none => s
  | some ctx =>
    if ctx.evicted then s
    else if s.closed then
      { s with trace := s.trace ++
          [Ev.logWarning "dropping notify_me() while event loop is closed"] }
    else { s with notifiables := s.notifiables ++ [(ctx.consumer, msg)]
                  trace := s.trace ++ [Ev.wakeSent] }

/-- `EventLoop.evict_consumer` (events.py lines 121-150).  Note that the
descriptor-removal loop reads `self.select` — an attribute that does not
exist (the field is named `selector`) — so as soon as the evicted consumer
owns any descriptor an `AttributeError` is raised, after the context has
been popped and flagged but before anything else is cleaned up. -/
def EventLoop.evict_consumer (s : EventLoop) (old : Nat) :
    Option PyErr × EventLoop :=
  match alookup s.contexts old with
  | none => (some PyErr.keyError, s)
  | some cid =>
    let s1 : EventLoop :=
      { s with contexts := aerase s.contexts old, heap := markEvicted s.heap cid }
    if s1.consumers.any (fun p => p.2 = old) then
      (some (PyErr.attributeError "select"), s1)
    else
      (none, { s1 with
        singletons := s1.singletons.filter (fun p => !(p.2 = old : Bool))
        startables := s1.startables.erase old
        stoppables := s1.stoppables.erase old
        notifiables := s1.notifiables.filter (fun p => !(p.1 = old : Bool)) })

/-- The except-branch of `EventLoop.evict_on_fail` (events.py lines
156-168): log the failure, attempt `shutdown()` on the offending consumer
(logging but swallowing a secondary failure), then evict it. -/
def EventLoop.evict_on_fail_body (b : Behavior) (s : EventLoop) (c : Nat) :
    Option PyErr × EventLoop :=
  let s1 := { s with trace := s.trace ++ [Ev.logError "failure in consumer code"] }
  let s2 := { s1 with trace := s1.trace ++ [Ev.shutdownCall c] ++
      (if b.shutdownFails c then
        [Ev.logError "failure in shutdown after failure in consumer code"]
      else []) }
  EventLoop.evict_consumer s2 c

/-- One iteration of the to-stop drain (events.py lines 182-190): the
popped consumer gets `shutdown()` (a failure is logged and swallowed),
then `evict_consumer` runs outside any handler. -/
def EventLoop.stop_one (b : Behavior) (s : EventLoop) (c : Nat) :
    Option PyErr × EventLoop :=
  let s1 := { s with trace := s.trace ++ [Ev.shutdownCall c] ++
      (if b.shutdownFails c then [Ev.logError "failure in shutdown"] else []) }
  EventLoop.evict_consumer s1 c

/-- One iteration of the to-notify drain (events.py lines 198-200):
`notify(msg)` under `evict_on_fail`. -/
def EventLoop.notify_one (b : Behavior) (s : EventLoop) (c : Nat) (m : String) :
    Option PyErr × EventLoop :=
  let s1 := { s with trace := s.trace ++ [Ev.notifyCall c m] }
  if b.notifyFails c m then EventLoop.evict_on_fail_body b s1 c else (none, s1)

/-- The descriptor registrations a consumer performs inside `startup`,
each through `LoopContext.register`; the first raise aborts the rest
(the exception escapes `startup` into `evict_on_fail`). -/
def EventLoop.do_startup_regs (cid : Nat) :
    List Nat → EventLoop → Option PyErr × EventLoop
  | [], s => (none, s)
  | f :: rest, s =>
    match LoopContext.register s cid f with
    | (some e, s') => (some e, s')
    | (none, s') => EventLoop.do_startup_regs cid rest s'

/-- One iteration of the to-start drain (events.py lines 192-196): a fresh
`LoopContext` is allocated and recorded, then `startup(ctx)` runs under
`evict_on_fail`. -/
def EventLoop.start_one (b : Behavior) (s : EventLoop) (c : Nat) :
    Option PyErr × EventLoop :=
  let cid := s.nextCtx
  let s1 := { s with heap := s.heap ++ [(cid, Ctx.mk c false)]
                     nextCtx := s.nextCtx + 1
                     contexts := ainsert s.contexts c cid }
  let s2 := { s1 with trace := s1.trace ++ [Ev.startupCall c] }
  match EventLoop.do_startup_regs cid (b.startupRegs c) s2 with
  | (some _, s3) => EventLoop.evict_on_fail_body b s3 c
  | (none, s3) =>
    if b.startupFails c then EventLoop.evict_on_fail_body b s3 c else (none, s3)

/-- `while self.stoppables:` (events.py lines 181-190).  `list.pop()`
takes the last element. -/
def EventLoop.drain_stops (b : Behavior) (s : EventLoop) :
    Option PyErr × EventLoop :=
  match hl : s.stoppables.getLast? with
  | none => (none, s)
  | some c =>
    match h : EventLoop.stop_one b { s with stoppables := s.stoppables.dropLast } c with
    | (some e, s2) => (some e, s2)
    | (none, s2) => EventLoop.drain_stops b s2
termination_by s.stoppables.length
decreasing_by
  have key : ∀ (t : EventLoop) (old : Nat),
      ((EventLoop.evict_consumer t old).2).stoppables.length ≤ t.stoppables.length := by
    intro t old
    unfold EventLoop.evict_consumer
    cases alookup t.contexts old with
    | none => simp
    | some cid =>
      simp only []
      split
      · simp
      · simpa using (t.stoppables.erase_sublist old).length_le
  have hle : ((EventLoop.stop_one b { s with stoppables := s.stoppables.dropLast }
      c).2).stoppables.length ≤ s.stoppables.dropLast.length := by
    unfold EventLoop.stop_one
    exact key _ _
  rw [h] at hle
  have hne : s.stoppables ≠ [] := by
    intro he
    rw [he] at hl
    simp at hl
  have hpos : 0 < s.stoppables.length := List.length_pos.mpr hne
  simp only [List.length_dropLast] at hle
  omega

/-- `while self.startables:` (events.py lines 191-196). -/
def EventLoop.drain_starts (b : Behavior) (s : EventLoop) :
    Option PyErr × EventLoop :=
  match hl : s.startables.getLast? with
  | none => (none, s)
  | some c =>
    match h : EventLoop.start_one b { s with startables := s.startables.dropLast } c with
    | (some e, s2) => (some e, s2)
    | (none, s2) => EventLoop.drain_starts b s2
termination_by s.startables.length
decreasing_by
  have keyE : ∀ (t : EventLoop) (old : Nat),
      ((EventLoop.evict_consumer t old).2).startables.length ≤ t.startables.length := by
    intro t old
    unfold EventLoop.evict_consumer
    cases alookup t.contexts old with
    | none => simp
    | some cid =>
      simp only []
      split
      · simp
      · simpa using (t.startables.erase_sublist old).length_le
  have keyB : ∀ (u : EventLoop) (c2 : Nat),
      ((EventLoop.evict_on_fail_body b u c2).2).startables.length ≤
        u.startables.length := by
    intro u c2
    unfold EventLoop.evict_on_fail_body
    exact keyE _ _
  have keyR : ∀ (t : EventLoop) (cid f : Nat),
      ((LoopContext.register t cid f).2).startables = t.startables := by
    intro t cid f
    unfold LoopContext.register
    cases alookup t.heap cid with
    | none => simp
    | some ctx =>
      simp only []
      split
      · simp
      · split <;> simp
  have keyD : ∀ (cid : Nat) (fs : List Nat) (t : EventLoop),
      ((EventLoop.do_startup_regs cid fs t).2).startables = t.startables := by
    intro cid fs
    induction fs with
    | nil => intro t; simp [EventLoop.do_startup_regs]
    | cons f rest ih =>
      intro t
      unfold EventLoop.do_startup_regs
      cases hr : LoopContext.register t cid f with
      | mk e t' =>
        have ht : t'.startables = t.startables := by
          have h2 := keyR t cid f
          rw [hr] at h2
          exact h2
        cases e with
        | none => simpa [ht] using ih t'
        | some e => simpa using ht
  have keyS : ∀ (t : EventLoop) (c2 : Nat),
      ((EventLoop.start_one b t c2).2).startables.length ≤ t.startables.length := by
    intro t c2
    unfold EventLoop.start_one
    simp only []
    cases hd : EventLoop.do_startup_regs t.nextCtx (b.startupRegs c2)
        { t with heap := t.heap ++ [(t.nextCtx, Ctx.mk c2 false)]
                 nextCtx := t.nextCtx + 1
                 contexts := ainsert t.contexts c2 t.nextCtx
                 trace := t.trace ++ [Ev.startupCall c2] } with
    | mk e t3 =>
      have ht : t3.startables = t.startables := by
        have h2 := keyD t.nextCtx (b.startupRegs c2)
          { t with heap := t.heap ++ [(t.nextCtx, Ctx.mk c2 false)]
                   nextCtx := t.nextCtx + 1
                   contexts := ainsert t.contexts c2 t.nextCtx
                   trace := t.trace ++ [Ev.startupCall c2] }
        rw [hd] at h2
        exact h2
      cases e with
      | none =>
        simp only []
        split
        · exact le_trans (keyB t3 c2) (le_of_eq (congrArg List.length ht))
        · exact le_of_eq (congrArg List.length ht)
      | some e => exact le_trans (keyB t3 c2) (le_of_eq (congrArg List.length ht))
  have hle := keyS { s with startables := s.startables.dropLast } c
  rw [h] at hle
  have hne : s.startables ≠ [] := by
    intro he
    rw [he] at hl
    simp at hl
  have hpos : 0 < s.startables.length := List.length_pos.mpr hne
  simp only [List.length_dropLast] at hle
  omega

/-- `while self.notifiables:` (events.py lines 197-200). -/
def EventLoop.drain_notifies (b : Behavior) (s : EventLoop) :
    Option PyErr × EventLoop :=
  match hl : s.notifiables.getLast? with
  | none => (none, s)
  | some cm =>
    match h : EventLoop.notify_one b { s with notifiables := s.notifiables.dropLast }
        cm.1 cm.2 with
    | (some e, s2) => (some e, s2)
    | (none, s2) => EventLoop.drain_notifies b s2
termination_by s.notifiables.length
decreasing_by
  have keyE : ∀ (t : EventLoop) (old : Nat),
      ((EventLoop.evict_consumer t old).2).notifiables.length ≤
        t.notifiables.length := by
    intro t old
    unfold EventLoop.evict_consumer
    cases alookup t.contexts old with
    | none => simp
    | some cid =>
      simp only []
      split
      · simp
      · simpa using List.length_filter_le _ t.notifiables
  have keyN : ∀ (t : EventLoop) (c2 : Nat) (m : String),
      ((EventLoop.notify_one b t c2 m).2).notifiables.length ≤
        t.notifiables.length := by
    intro t c2 m
    unfold EventLoop.notify_one
    split
    · unfold EventLoop.evict_on_fail_body
      exact keyE _ _
    · simp
  have hle := keyN { s with notifiables := s.notifiables.dropLast } cm.1 cm.2
  rw [h] at hle
  have hne : s.notifiables ≠ [] := by
    intro he
    rw [he] at hl
    simp at hl
  have hpos : 0 < s.notifiables.length := List.length_pos.mpr hne
  simp only [List.length_dropLast] at hle
  omega

/-- The `b"wake"` branch of `run_one` (events.py lines 180-201): drain
stops, then starts, then notifies; an escaping exception aborts the rest. -/
def EventLoop.drain_wake (b : Behavior) (s : EventLoop) :
    Option PyErr × EventLoop :=
  match EventLoop.drain_stops b s with
  | (some e, s1) => (some e, s1)
  | (none, s1) =>
    match EventLoop.drain_starts b s1 with
    | (some e, s2) => (some e, s2)
    | (none, s2) => EventLoop.drain_notifies b s2

/-- Python `bytes.splitlines` for data made of `\n`, `\r` and `\r\n`
separated lines (a trailing terminator yields no empty final line). -/
def splitlinesAux : List Char → List Char → List (List Char)
  | [], acc => if acc.isEmpty then [] else [acc.reverse]
  | '\r' :: '\n' :: rest, acc => acc.reverse :: splitlinesAux rest []
  | '\r' :: rest, acc => acc.reverse :: splitlinesAux rest []
  | '\n' :: rest, acc => acc.reverse :: splitlinesAux rest []
  | ch :: rest, acc => splitlinesAux rest (ch :: acc)

/-- `msg.splitlines()` on the bytes read from the control channel. -/
def splitlines (msg : String) : List String :=
  (splitlinesAux msg.toList []).map String.mk

/-- Readiness dispatch to a consumer (events.py lines 204-208):
`consumer = self.consumers[key.fileobj]` then `event()` under
`evict_on_fail`. -/
def EventLoop.dispatch_fd (b : Behavior) (s : EventLoop) (fileobj : Nat) :
    Option PyErr × EventLoop :=
  match alookup s.consumers fileobj with
  | none => (some PyErr.keyError, s)
  | some c =>
    let s1 := { s with trace := s.trace ++ [Ev.eventCall c fileobj] }
    if b.eventFails c then EventLoop.evict_on_fail_body b s1 c else (none, s1)

/-- The `for line in msg.splitlines():` loop of `run_one` (events.py lines
174-202).  Every iteration either returns or raises, so at most the first
line is ever dispatched; the loop body only runs zero times when the line
list is empty, in which case execution falls through to line 205 where
`self.consumers[self.ctrl_r]` raises `KeyError`.  The middle component of
the result is the `True`/`False` return value of `run_one`. -/
def EventLoop.run_ctrl_lines (b : Behavior) :
    List String → EventLoop → Option PyErr × Bool × EventLoop
  | [], s =>
    match EventLoop.dispatch_fd b s ctrl_r with
    | (e, s') => (e, false, s')
  | line :: _, s =>
    if line = "quit" then
      -- `for consumer, ctx in self.contexts:` iterates the KEYS of the
      -- dict, so unpacking raises TypeError on the first entry; with an
      -- empty dict the loop body never runs and run_one returns True.
      match s.contexts with
      | [] => (none, true, s)
      | _ :: _ => (some PyErr.typeError, false, s)
    else if line = "wake" then
      match EventLoop.drain_wake b s with
      | (some e, s') => (some e, false, s')
      | (none, s') => (none, false, s')
    else (some (PyErr.valueError line), false, s)

/-- `EventLoop.run_one` (events.py lines 170-208), with the bytes read
from the control channel supplied as `msg`. -/
def EventLoop.run_one (b : Behavior) (s : EventLoop) (fileobj : Nat)
    (msg : String) : Option PyErr × Bool × EventLoop :=
  if fileobj = ctrl_r then
    EventLoop.run_ctrl_lines b (splitlines msg) s
  else
    match EventLoop.dispatch_fd b s fileobj with
    | (e, s') => (e, false, s')

/-- The registration half of `EventLoop.singleton` (events.py lines
252-261): under the lock, when the loop is not closed the new object is
enqueued for start and recorded under the name, and a wake byte is sent;
when it is closed a warning is logged instead. -/
def EventLoop.singleton_finish (s : EventLoop) (name : String) (obj : Nat) :
    EventLoop :=
  if s.closed = false then
    { s with startables := s.startables ++ [obj]
             singletons := ainsert s.singletons name obj
             trace := s.trace ++ [Ev.wakeSent] }
  else
    { s with trace := s.trace ++
        [Ev.logWarning "not starting singleton because event loop is not running"] }

/-- `EventLoop.singleton` (events.py lines 239-265), with the factory
result `fn()` supplied as `obj`.  When the name is already taken the old
consumer is looked up in `self.contexts` with no default, so a consumer
that was registered but has not yet been started (no context yet) makes
the call raise `KeyError` — after the name has already been popped. -/
def EventLoop.singleton (s : EventLoop) (name : String) (obj : Nat) :
    Option PyErr × EventLoop :=
  match alookup s.singletons name with
  | some old =>
    let s1 := { s with singletons := aerase s.singletons name }
    match alookup s1.contexts old with
    | none => (some PyErr.keyError, s1)
    | some cid =>
      let s2 := LoopContext.shut_me_down s1 cid
      (none, EventLoop.singleton_finish s2 name obj)
  | none => (none, EventLoop.singleton_finish s name obj)

/-- The `for consumer in list(self.contexts):` loop of `EventLoop._close`
(events.py lines 223-231).  The body reads `self.consumer` — an attribute
the loop object does not have — so the `try` block raises
`AttributeError` before any consumer `shutdown()` is reached; the
exception is caught and logged, then `evict_consumer` runs unprotected. -/
def EventLoop.close_consumers : List Nat → EventLoop → Option PyErr × EventLoop
  | [], s => (none, s)
  | c :: rest, s =>
    let s1 := { s with trace := s.trace ++ [Ev.logError "failure in shutdown"] }
    match EventLoop.evict_consumer s1 c with
    | (some e, s2) => (some e, s2)
    | (none, s2) => EventLoop.close_consumers rest s2

/-- `EventLoop._close` (events.py lines 222-236): shut down every
still-registered consumer, then unregister and close both control channel
endpoints and the selector.  `ctrl_w` was never registered with the
selector, so its unregister raises `KeyError`. -/
def EventLoop.close_internal (s : EventLoop) : Option PyErr × EventLoop :=
  match EventLoop.close_consumers (s.contexts.map Prod.fst) s with
  | (some e, s1) => (some e, s1)
  | (none, s1) =>
    if ctrl_r ∈ s1.selector then
      let s2 := { s1 with selector := s1.selector.erase ctrl_r }
      if ctrl_w ∈ s2.selector then
        (none, { s2 with selector := s2.selector.erase ctrl_w })
      else (some PyErr.keyError, s2)
    else (some PyErr.keyError, s1)

/-- The `finally:` block of `EventLoop.run` (events.py lines 216-220):
`_close()` runs, and only if it returns normally is the closed flag set
and the condition notified. -/
def EventLoop.run_teardown (s : EventLoop) : Option PyErr × EventLoop :=
  match EventLoop.close_internal s with
  | (some e, s1) => (some e, s1)
  | (none, s1) => (none, { s1 with closed := true })

/-- The contexts-table invariant (claim C9): keys of `contexts` and of the
heap are unique, heap addresses are below the allocation counter, every
`contexts` entry points at a live (non-evicted) context object for that
consumer, and every live context object is the current context of its
consumer. -/
def InvHolds (s : EventLoop) : Prop :=
  (s.contexts.map Prod.fst).Nodup ∧
  (s.heap.map Prod.fst).Nodup ∧
  (∀ p ∈ s.heap, p.1 < s.nextCtx) ∧
  (∀ p ∈ s.contexts, ∃ q ∈ s.heap,
      q.1 = p.2 ∧ q.2.evicted = false ∧ q.2.consumer = p.1) ∧
  (∀ q ∈ s.heap, q.2.evicted = false → (q.2.consumer, q.1) ∈ s.contexts)

instance (s : EventLoop) : Decidable (InvHolds s) := by
  unfold InvHolds
  infer_instance

/-- The operations through which reactor state ever changes: the five
`LoopContext` methods, `evict_consumer`, one iteration of each of the
three queue drains, `singleton`, and readiness dispatch. -/
inductive ReactorOp where
  | opRegister (cid f : Nat)
  | opModify (cid f : Nat)
  | opUnregister (cid f : Nat)
  | opShutMeDown (cid : Nat)
  | opNotifyMe (cid : Nat) (m : String)
  | opEvict (c : Nat)
  | opStartOne (c : Nat)
  | opStopOne (c : Nat)
  | opNotifyOne (c : Nat) (m : String)
  | opSingleton (name : String) (obj : Nat)
  | opDispatchFd (f : Nat)

/-- Run one reactor operation. -/
def stepOp (b : Behavior) (op : ReactorOp) (s : EventLoop) :
    Option PyErr × EventLoop :=
  match op with
  | .opRegister cid f => LoopContext.register s cid f
  | .opModify cid f => LoopContext.modify s cid f
  | .opUnregister cid f => LoopContext.unregister s cid f
  | .opShutMeDown cid => (none, LoopContext.shut_me_down s cid)
  | .opNotifyMe cid m => (none, LoopContext.notify_me s cid m)
  | .opEvict c => EventLoop.evict_consumer s c
  | .opStartOne c => EventLoop.start_one b s c
  | .opStopOne c => EventLoop.stop_one b s c
  | .opNotifyOne c m => EventLoop.notify_one b s c m
  | .opSingleton name obj => EventLoop.singleton s name obj
  | .opDispatchFd f => EventLoop.dispatch_fd b s f

/-- Side condition for `stepOp`: a consumer drained from the to-start
queue is not already started (consumers come fresh out of their factory,
and `startup` is called at most once per consumer). -/
def ReactorOpOk (op : ReactorOp) (s : EventLoop) : Prop :=
  match op with
  | .opStartOne c => alookup s.contexts c = none
  | _ => True

instance (op : ReactorOp) (s : EventLoop) : Decidable (ReactorOpOk op s) := by
  unfold ReactorOpOk
  cases op <;> infer_instance

/-- A behaviour in which `event()` always raises. -/
def bEventFail : Behavior := { Behavior.quiet with eventFails := fun _ => true }

/-- A loop with one started consumer (number 3, context at heap address 0)
that owns no descriptors. -/
def sStarted : EventLoop :=
  { EventLoop.init with contexts := [(3, 0)], heap := [(0, Ctx.mk 3 false)]
                        nextCtx := 1 }

/-- A loop with one started consumer (number 3, context at heap address 0)
owning descriptor 5, registered as a singleton under "x". -/
def sOwnsFd : EventLoop :=
  { EventLoop.init with selector := [ctrl_r, 5], consumers := [(5, 3)]
                        singletons := [("x", 3)], contexts := [(3, 0)]
                        heap := [(0, Ctx.mk 3 false)], nextCtx := 1 }

/-- A loop whose to-notify queue holds messages "a" then "b" (appended in
that order) for the started consumer 7. -/
def sNotifyAB : EventLoop :=
  { EventLoop.init with contexts := [(7, 0)], heap := [(0, Ctx.mk 7 false)]
                        nextCtx := 1, notifiables := [(7, "a"), (7, "b")] }

/-- A loop whose to-stop queue holds the started consumer 3 while the
singleton registry is empty (the registration that produced 3 was
superseded). -/
def sStopNoName : EventLoop :=
  { EventLoop.init with contexts := [(3, 0)], heap := [(0, Ctx.mk 3 false)]
                        nextCtx := 1, stoppables := [3] }

/-- A loop holding an evicted context object at heap address 0. -/
def sEvictedCtx : EventLoop :=
  { EventLoop.init with heap := [(0, Ctx.mk 3 true)], nextCtx := 1 }

/-- A closed loop holding a live (non-evicted) context at heap address 0. -/
def sClosedLive : EventLoop :=
  { EventLoop.init with contexts := [(3, 0)], heap := [(0, Ctx.mk 3 false)]
                        nextCtx := 1, closed := true }

/-- A loop with started consumer 3 (no descriptors) registered under "x",
with pending stop and notify entries referring to it. -/
def sRichStarted : EventLoop :=
  { EventLoop.init with singletons := [("x", 3)], contexts := [(3, 0)]
                        heap := [(0, Ctx.mk 3 false)], nextCtx := 1
                        stoppables := [3], notifiables := [(3, "m")] }

theorem alookup_eq_none {α β : Type} [DecidableEq α] (l : List (α × β)) (k : α) :
    alookup l k = none ↔ k ∉ l.map Prod.fst := by
  induction l with
  | nil => simp [alookup]
  | cons p t ih =>
    cases p with
    | mk a b2 =>
      by_cases hk : a = k
      · subst hk
        simp [alookup]
      · simp [alookup, hk, ih, Ne.symm hk]

theorem mem_of_alookup {α β : Type} [DecidableEq α] {l : List (α × β)} {k : α}
    {v : β} (h : alookup l k = some v) : (k, v) ∈ l := by
  induction l with
  | nil => simp [alookup] at h
  | cons p t ih =>
    cases p with
    | mk a b2 =>
      by_cases hk : a = k
      · subst hk
        simp [alookup] at h
        simp [h]
      · simp [alookup, hk] at h
        exact List.mem_cons_of_mem _ (ih h)

theorem alookup_of_mem_nodup {α β : Type} [DecidableEq α] {l : List (α × β)}
    {k : α} {v : β} (hn : (l.map Prod.fst).Nodup) (h : (k, v) ∈ l) :
    alookup l k = some v := by
  induction l with
  | nil => simp at h
  | cons p t ih =>
    cases p with
    | mk a b2 =>
      simp only [List.map_cons, List.nodup_cons] at hn
      rcases List.mem_cons.mp h with h1 | h1
      · rw [Prod.mk.injEq] at h1
        simp [alookup, h1.1.symm, h1.2]
      · have hak : a ≠ k := by
          intro he
          subst he
          exact hn.1 (by simpa using List.mem_map_of_mem Prod.fst h1)
        simp [alookup, hak, ih hn.2 h1]

theorem nodup_keys_unique {α β : Type} [DecidableEq α] {l : List (α × β)}
    {k : α} {v w : β} (hn : (l.map Prod.fst).Nodup) (hv : (k, v) ∈ l)
    (hw : (k, w) ∈ l) : v = w := by
  have h1 := alookup_of_mem_nodup hn hv
  have h2 := alookup_of_mem_nodup hn hw
  rw [h1] at h2
  exact Option.some_inj.mp h2

theorem mem_aerase {α β : Type} [DecidableEq α] {p : α × β} {l : List (α × β)}
    {k : α} (h : p ∈ aerase l k) : p ∈ l := by
  induction l with
  | nil => simpa [aerase] using h
  | cons q t ih =>
    cases q with
    | mk a b2 =>
      by_cases hk : a = k
      · subst hk
        simp [aerase] at h
        exact List.mem_cons_of_mem _ h
      · rcases List.mem_cons.mp (by simpa [aerase, hk] using h) with h1 | h1
        · simp [h1]
        · exact List.mem_cons_of_mem _ (ih h1)

theorem mem_aerase_of_ne {α β : Type} [DecidableEq α] {p : α × β}
    {l : List (α × β)} {k : α} (h : p ∈ l) (hne : p.1 ≠ k) : p ∈ aerase l k := by
  induction l with
  | nil => simp at h
  | cons q t ih =>
    cases q with
    | mk a b2 =>
      by_cases hk : a = k
      · subst hk
        simp only [aerase, if_pos rfl]
        rcases List.mem_cons.mp h with h1 | h1
        · exact absurd (by rw [h1]) hne
        · exact h1
      · simp only [aerase, if_neg hk]
        rcases List.mem_cons.mp h with h1 | h1
        · exact h1 ▸ List.mem_cons_self _ _
        · exact List.mem_cons_of_mem _ (ih h1)

theorem ne_key_of_mem_aerase {α β : Type} [DecidableEq α] {p : α × β}
    {l : List (α × β)} {k : α} (hn : (l.map Prod.fst).Nodup)
    (h : p ∈ aerase l k) : p.1 ≠ k := by
  induction l with
  | nil => simp [aerase] at h
  | cons q t ih =>
    cases q with
    | mk a b2 =>
      simp only [List.map_cons, List.nodup_cons] at hn
      by_cases hk : a = k
      · subst hk
        simp only [aerase, if_pos rfl] at h
        intro he
        exact hn.1 (he ▸ (by simpa using List.mem_map_of_mem Prod.fst h))
      · rcases List.mem_cons.mp (by simpa [aerase, hk] using h) with h1 | h1
        · rw [h1]
          exact hk
        · exact ih hn.2 h1

theorem aerase_keys_sublist {α β : Type} [DecidableEq α] (l : List (α × β))
    (k : α) : List.Sublist ((aerase l k).map Prod.fst) (l.map Prod.fst) := by
  induction l with
  | nil => simp [aerase]
  | cons q t ih =>
    cases q with
    | mk a b2 =>
      by_cases hk : a = k
      · subst hk
        simpa [aerase] using (List.map Prod.fst t).sublist_cons a
      · simpa [aerase, hk] using ih.cons₂ a

theorem mem_ainsert {α β : Type} [DecidableEq α] {p : α × β} {l : List (α × β)}
    {k : α} {v : β} (h : p ∈ ainsert l k v) : p = (k, v) ∨ p ∈ l := by
  induction l with
  | nil => simpa [ainsert] using h
  | cons q t ih =>
    cases q with
    | mk a b2 =>
      by_cases hk : a = k
      · subst hk
        rcases List.mem_cons.mp (by simpa [ainsert] using h) with h1 | h1
        · exact Or.inl h1
        · exact Or.inr (List.mem_cons_of_mem _ h1)
      · rcases List.mem_cons.mp (by simpa [ainsert, hk] using h) with h1 | h1
        · exact Or.inr (h1 ▸ List.mem_cons_self _ _)
        · rcases ih h1 with h2 | h2
          · exact Or.inl h2
          · exact Or.inr (List.mem_cons_of_mem _ h2)

theorem ainsert_of_not_mem {α β : Type} [DecidableEq α] {l : List (α × β)}
    {k : α} (v : β) (h : alookup l k = none) : ainsert l k v = l ++ [(k, v)] := by
  induction l with
  | nil => simp [ainsert]
  | cons q t ih =>
    cases q with
    | mk a b2 =>
      by_cases hk : a = k
      · subst hk
        simp [alookup] at h
      · simp only [alookup, if_neg hk] at h
        simp [ainsert, hk, ih h]

theorem markEvicted_keys (h : List (Nat × Ctx)) (cid : Nat) :
    (markEvicted h cid).map Prod.fst = h.map Prod.fst := by
  induction h with
  | nil => simp [markEvicted]
  | cons q t ih =>
    by_cases hq : q.1 = cid <;>
      simpa [markEvicted, hq] using congrArg (List.cons q.1) ih

theorem mem_markEvicted_of_ne {p : Nat × Ctx} {h : List (Nat × Ctx)} {cid : Nat}
    (hm : p ∈ h) (hne : p.1 ≠ cid) : p ∈ markEvicted h cid := by
  have h1 := List.mem_map_of_mem
    (fun q : Nat × Ctx =>
      if q.1 = cid then (q.1, { q.2 with evicted := true }) else q) hm
  simpa [markEvicted, hne] using h1

theorem inv_congr {s s' : EventLoop} (hc : s'.contexts = s.contexts)
    (hh : s'.heap = s.heap) (hn : s'.nextCtx = s.nextCtx) (hI : InvHolds s) :
    InvHolds s' := by
  unfold InvHolds at hI ⊢
  rw [hc, hh, hn]
  exact hI

theorem register_frame (s : EventLoop) (cid f : Nat) :
    ((LoopContext.register s cid f).2).contexts = s.contexts ∧
    ((LoopContext.register s cid f).2).heap = s.heap ∧
    ((LoopContext.register s cid f).2).nextCtx = s.nextCtx := by
  unfold LoopContext.register
  cases alookup s.heap cid with
  | none => exact ⟨rfl, rfl, rfl⟩
  | some ctx =>
    simp only []
    split
    · exact ⟨rfl, rfl, rfl⟩
    · split
      · exact ⟨rfl, rfl, rfl⟩
      · exact ⟨rfl, rfl, rfl⟩

theorem modify_frame (s : EventLoop) (cid f : Nat) :
    ((LoopContext.modify s cid f).2).contexts = s.contexts ∧
    ((LoopContext.modify s cid f).2).heap = s.heap ∧
    ((LoopContext.modify s cid f).2).nextCtx = s.nextCtx := by
  unfold LoopContext.modify
  cases alookup s.heap cid with
  | none => exact ⟨rfl, rfl, rfl⟩
  | some ctx =>
    simp only []
    split
    · exact ⟨rfl, rfl, rfl⟩
    · split
      · exact ⟨rfl, rfl, rfl⟩
      · exact ⟨rfl, rfl, rfl⟩

theorem unregister_frame (s : EventLoop) (cid f : Nat) :
    ((LoopContext.unregister s cid f).2).contexts = s.contexts ∧
    ((LoopContext.unregister s cid f).2).heap = s.heap ∧
    ((LoopContext.unregister s cid f).2).nextCtx = s.nextCtx := by
  unfold LoopContext.unregister
  cases alookup s.heap cid with
  | none => exact ⟨rfl, rfl, rfl⟩
  | some ctx =>
    simp only []
    split
    · exact ⟨rfl, rfl, rfl⟩
    · split
      · cases alookup
          ({ s with selector := s.selector.erase f } : EventLoop).consumers f with
        | none => exact ⟨rfl, rfl, rfl⟩
        | some c => exact ⟨rfl, rfl, rfl⟩
      · exact ⟨rfl, rfl, rfl⟩

theorem shut_me_down_frame (s : EventLoop) (cid : Nat) :
    (LoopContext.shut_me_down s cid).contexts = s.contexts ∧
    (LoopContext.shut_me_down s cid).heap = s.heap ∧
    (LoopContext.shut_me_down s cid).nextCtx = s.nextCtx := by
  unfold LoopContext.shut_me_down
  cases alookup s.heap cid with
  | none => exact ⟨rfl, rfl, rfl⟩
  | some ctx =>
    simp only []
    split
    · exact ⟨rfl, rfl, rfl⟩
    · split
      · exact ⟨rfl, rfl, rfl⟩
      · exact ⟨rfl, rfl, rfl⟩

theorem notify_me_frame (s : EventLoop) (cid : Nat) (m : String) :
    (LoopContext.notify_me s cid m).contexts = s.contexts ∧
    (LoopContext.notify_me s cid m).heap = s.heap ∧
    (LoopContext.notify_me s cid m).nextCtx = s.nextCtx := by
  unfold LoopContext.notify_me
  cases alookup s.heap cid with
  | none => exact ⟨rfl, rfl, rfl⟩
  | some ctx =>
    simp only []
    split
    · exact ⟨rfl, rfl, rfl⟩
    · split
      · exact ⟨rfl, rfl, rfl⟩
      · exact ⟨rfl, rfl, rfl⟩

theorem do_startup_regs_frame (cid : Nat) (fs : List Nat) (s : EventLoop) :
    ((EventLoop.do_startup_regs cid fs s).2).contexts = s.contexts ∧
    ((EventLoop.do_startup_regs cid fs s).2).heap = s.heap ∧
    ((EventLoop.do_startup_regs cid fs s).2).nextCtx = s.nextCtx := by
  induction fs generalizing s with
  | nil => exact ⟨rfl, rfl, rfl⟩
  | cons f rest ih =>
    unfold EventLoop.do_startup_regs
    cases hr : LoopContext.register s cid f with
    | mk e s' =>
      have hf := register_frame s cid f
      rw [hr] at hf
      cases e with
      | none =>
        simp only []
        obtain ⟨h1, h2, h3⟩ := ih s'
        exact ⟨h1.trans hf.1, h2.trans hf.2.1, h3.trans hf.2.2⟩
      | some e => exact hf

theorem inv_evict (s : EventLoop) (old : Nat) (hI : InvHolds s) :
    InvHolds (EventLoop.evict_consumer s old).2 := by
  obtain ⟨hnc, hnh, hlt, hts, hfc⟩ := hI
  unfold EventLoop.evict_consumer
  cases hlk : alookup s.contexts old with
  | none => exact ⟨hnc, hnh, hlt, hts, hfc⟩
  | some cid =>
    simp only []
    have hmem_old : (old, cid) ∈ s.contexts := mem_of_alookup hlk
    have core : InvHolds { s with contexts := aerase s.contexts old
                                  heap := markEvicted s.heap cid } := by
      refine ⟨?_, ?_, ?_, ?_, ?_⟩
      · exact List.Nodup.sublist (aerase_keys_sublist _ _) hnc
      · show ((markEvicted s.heap cid).map Prod.fst).Nodup
        rw [markEvicted_keys]
        exact hnh
      · intro p hp
        unfold markEvicted at hp
        rw [List.mem_map] at hp
        obtain ⟨q, hq, hfq⟩ := hp
        have hlt' := hlt q hq
        by_cases hqc : q.1 = cid
        · rw [if_pos hqc] at hfq
          rw [← hfq]
          exact hlt'
        · rw [if_neg hqc] at hfq
          rw [← hfq]
          exact hlt'
      · intro p hp
        have hpl : p ∈ s.contexts := mem_aerase hp
        have hpne : p.1 ≠ old := ne_key_of_mem_aerase hnc hp
        obtain ⟨q, hq, hq1, hqe, hqcons⟩ := hts p hpl
        have hqcid : q.1 ≠ cid := by
          intro he
          obtain ⟨q', hq', hq'1, hq'e, hq'c⟩ := hts (old, cid) hmem_old
          have hq'1c : q'.1 = cid := hq'1
          have hq'co : q'.2.consumer = old := hq'c
          have hm1 : (cid, q.2) ∈ s.heap := by
            rw [← he]
            exact hq
          have hm2 : (cid, q'.2) ∈ s.heap := by
            rw [← hq'1c]
            exact hq'
          have heq : q.2 = q'.2 := nodup_keys_unique hnh hm1 hm2
          apply hpne
          rw [← hqcons, heq, hq'co]
        exact ⟨q, mem_markEvicted_of_ne hq hqcid, hq1, hqe, hqcons⟩
      · intro q' hq' hev
        unfold markEvicted at hq'
        rw [List.mem_map] at hq'
        obtain ⟨q, hq, hfq⟩ := hq'
        by_cases hqc : q.1 = cid
        · rw [if_pos hqc] at hfq
          rw [← hfq] at hev
          simp at hev
        · rw [if_neg hqc] at hfq
          subst hfq
          have hmem := hfc q hq hev
          apply mem_aerase_of_ne hmem
          intro he
          have he' : q.2.consumer = old := he
          apply hqc
          have hmem' : (old, q.1) ∈ s.contexts := by
            rw [← he']
            exact hmem
          have h1 := alookup_of_mem_nodup hnc hmem'
          rw [hlk] at h1
          exact (Option.some_inj.mp h1).symm
    split
    · exact core
    · exact core

theorem inv_evict_on_fail_body (b : Behavior) (s : EventLoop) (c : Nat)
    (hI : InvHolds s) : InvHolds (EventLoop.evict_on_fail_body b s c).2 := by
  unfold EventLoop.evict_on_fail_body
  exact inv_evict _ _ hI

theorem inv_start_one (b : Behavior) (s : EventLoop) (c : Nat)
    (hI : InvHolds s) (hc : alookup s.contexts c = none) :
    InvHolds (EventLoop.start_one b s c).2 := by
  have halloc : InvHolds
      { s with heap := s.heap ++ [(s.nextCtx, Ctx.mk c false)]
               nextCtx := s.nextCtx + 1
               contexts := ainsert s.contexts c s.nextCtx
               trace := s.trace ++ [Ev.startupCall c] } := by
    obtain ⟨hnc, hnh, hlt, hts, hfc⟩ := hI
    have hkeys : ainsert s.contexts c s.nextCtx = s.contexts ++ [(c, s.nextCtx)] :=
      ainsert_of_not_mem _ hc
    have hcnot : c ∉ s.contexts.map Prod.fst := (alookup_eq_none _ _).mp hc
    have hnnot : s.nextCtx ∉ s.heap.map Prod.fst := by
      intro hmem
      rw [List.mem_map] at hmem
      obtain ⟨q, hq, hfq⟩ := hmem
      exact absurd (hfq ▸ hlt q hq) (lt_irrefl _)
    refine ⟨?_, ?_, ?_, ?_, ?_⟩
    · show ((ainsert s.contexts c s.nextCtx).map Prod.fst).Nodup
      rw [hkeys, List.map_append, List.nodup_append]
      refine ⟨hnc, List.nodup_singleton _, ?_⟩
      intro x hx hy
      simp only [List.map_cons, List.map_nil, List.mem_singleton] at hy
      subst hy
      exact hcnot hx
    · show ((s.heap ++ [(s.nextCtx, Ctx.mk c false)]).map Prod.fst).Nodup
      rw [List.map_append, List.nodup_append]
      refine ⟨hnh, List.nodup_singleton _, ?_⟩
      intro x hx hy
      simp only [List.map_cons, List.map_nil, List.mem_singleton] at hy
      subst hy
      exact hnnot hx
    · intro p hp
      rcases List.mem_append.mp hp with h1 | h1
      · exact Nat.lt_succ_of_lt (hlt p h1)
      · rw [List.mem_singleton] at h1
        subst h1
        exact Nat.lt_succ_self _
    · intro p hp
      rw [hkeys] at hp
      rcases List.mem_append.mp hp with h1 | h1
      · obtain ⟨q, hq, hq1, hqe, hqc⟩ := hts p h1
        exact ⟨q, List.mem_append_left _ hq, hq1, hqe, hqc⟩
      · simp at h1
        subst h1
        refine ⟨(s.nextCtx, Ctx.mk c false), ?_, rfl, rfl, rfl⟩
        exact List.mem_append_right _ (List.mem_singleton_self _)
    · intro q hq hev
      rw [hkeys]
      rcases List.mem_append.mp hq with h1 | h1
      · exact List.mem_append_left _ (hfc q h1 hev)
      · simp at h1
        subst h1
        exact List.mem_append_right _ (by simp)
  unfold EventLoop.start_one
  simp only []
  cases hd : EventLoop.do_startup_regs s.nextCtx (b.startupRegs c)
      { s with heap := s.heap ++ [(s.nextCtx, Ctx.mk c false)]
               nextCtx := s.nextCtx + 1
               contexts := ainsert s.contexts c s.nextCtx
               trace := s.trace ++ [Ev.startupCall c] } with
  | mk e s3 =>
    have hf := do_startup_regs_frame s.nextCtx (b.startupRegs c)
      { s with heap := s.heap ++ [(s.nextCtx, Ctx.mk c false)]
               nextCtx := s.nextCtx + 1
               contexts := ainsert s.contexts c s.nextCtx
               trace := s.trace ++ [Ev.startupCall c] }
    rw [hd] at hf
    have hI3 : InvHolds s3 := inv_congr hf.1 hf.2.1 hf.2.2 halloc
    cases e with
    | none =>
      simp only []
      split
      · exact inv_evict_on_fail_body _ _ _ hI3
      · exact hI3
    | some e => exact inv_evict_on_fail_body _ _ _ hI3

theorem inv_stop_one (b : Behavior) (s : EventLoop) (c : Nat) (hI : InvHolds s) :
    InvHolds (EventLoop.stop_one b s c).2 := by
  unfold EventLoop.stop_one
  exact inv_evict _ _ hI

theorem inv_notify_one (b : Behavior) (s : EventLoop) (c : Nat) (m : String)
    (hI : InvHolds s) : InvHolds (EventLoop.notify_one b s c m).2 := by
  unfold EventLoop.notify_one
  split
  · exact inv_evict_on_fail_body _ _ _ hI
  · exact hI

theorem inv_dispatch_fd (b : Behavior) (s : EventLoop) (f : Nat)
    (hI : InvHolds s) : InvHolds (EventLoop.dispatch_fd b s f).2 := by
  unfold EventLoop.dispatch_fd
  cases alookup s.consumers f with
  | none => exact hI
  | some c =>
    simp only []
    split
    · exact inv_evict_on_fail_body _ _ _ hI
    · exact hI

theorem singleton_finish_frame (s : EventLoop) (name : String) (obj : Nat) :
    (EventLoop.singleton_finish s name obj).contexts = s.contexts ∧
    (EventLoop.singleton_finish s name obj).heap = s.heap ∧
    (EventLoop.singleton_finish s name obj).nextCtx = s.nextCtx := by
  unfold EventLoop.singleton_finish
  split
  · exact ⟨rfl, rfl, rfl⟩
  · exact ⟨rfl, rfl, rfl⟩

theorem inv_singleton (s : EventLoop) (name : String) (obj : Nat)
    (hI : InvHolds s) : InvHolds (EventLoop.singleton s name obj).2 := by
  unfold EventLoop.singleton
  cases alookup s.singletons name with
  | none =>
    obtain ⟨h1, h2, h3⟩ := singleton_finish_frame s name obj
    exact inv_congr h1 h2 h3 hI
  | some old =>
    simp only []
    have hI1 : InvHolds { s with singletons := aerase s.singletons name } :=
      inv_congr rfl rfl rfl hI
    cases alookup
        ({ s with singletons := aerase s.singletons name } : EventLoop).contexts
        old with
    | none => exact hI1
    | some cid =>
      simp only []
      obtain ⟨f1, f2, f3⟩ :=
        shut_me_down_frame { s with singletons := aerase s.singletons name } cid
      obtain ⟨g1, g2, g3⟩ := singleton_finish_frame
        (LoopContext.shut_me_down
          { s with singletons := aerase s.singletons name } cid) name obj
      exact inv_congr (g1.trans f1) (g2.trans f2) (g3.trans f3) hI1

/-- C9: every reactor operation preserves the contexts-table invariant:
a consumer has an entry in `contexts` exactly when its context object is
not evicted; eviction removes the entry and sets the flag in one step,
and a drained start installs a fresh context with the flag `false`
(provided the started consumer is not already started, which is the
documented lifecycle). -/
theorem c9_contexts_invariant (b : Behavior) (op : ReactorOp) (s : EventLoop)
    (hI : InvHolds s) (hok : ReactorOpOk op s) :
    InvHolds (stepOp b op s).2 := by
  cases op with
  | opRegister cid f =>
    obtain ⟨h1, h2, h3⟩ := register_frame s cid f
    exact inv_congr h1 h2 h3 hI
  | opModify cid f =>
    obtain ⟨h1, h2, h3⟩ := modify_frame s cid f
    exact inv_congr h1 h2 h3 hI
  | opUnregister cid f =>
    obtain ⟨h1, h2, h3⟩ := unregister_frame s cid f
    exact inv_congr h1 h2 h3 hI
  | opShutMeDown cid =>
    obtain ⟨h1, h2, h3⟩ := shut_me_down_frame s cid
    exact inv_congr h1 h2 h3 hI
  | opNotifyMe cid m =>
    obtain ⟨h1, h2, h3⟩ := notify_me_frame s cid m
    exact inv_congr h1 h2 h3 hI
  | opEvict c => exact inv_evict s c hI
  | opStartOne c => exact inv_start_one b s c hI hok
  | opStopOne c => exact inv_stop_one b s c hI
  | opNotifyOne c m => exact inv_notify_one b s c m hI
  | opSingleton name obj => exact inv_singleton s name obj hI
  | opDispatchFd f => exact inv_dispatch_fd b s f hI

/-- C9 witness: the invariant holds of the freshly initialised loop and is
preserved when consumer 3 is started on it. -/
theorem c9_contexts_invariant_witness :
    InvHolds EventLoop.init ∧
    ReactorOpOk (ReactorOp.opStartOne 3) EventLoop.init ∧
    InvHolds (stepOp Behavior.quiet (ReactorOp.opStartOne 3) EventLoop.init).2 :=
  ⟨by decide, by decide,
    c9_contexts_invariant Behavior.quiet (ReactorOp.opStartOne 3) EventLoop.init
      (by decide) (by decide)⟩

/-- C1 (code bug): with one started consumer, the teardown path that
`close()` waits for never delivers `shutdown()` to the consumer: line 225
reads the nonexistent attribute `self.consumer`, the resulting
`AttributeError` is caught and logged for every consumer, and `_close`
then dies with `KeyError` unregistering the never-registered `ctrl_w`
endpoint, so the `closed` flag is never set; the consumer observes zero
`shutdown()` calls rather than exactly one. -/
theorem c1_close_teardown_never_calls_shutdown :
    (EventLoop.run_teardown sStarted).1 = some PyErr.keyError ∧
    (EventLoop.run_teardown sStarted).2.trace.count (Ev.shutdownCall 3) = 0 ∧
    (EventLoop.run_teardown sStarted).2.trace =
      [Ev.logError "failure in shutdown"] ∧
    (EventLoop.run_teardown sStarted).2.closed = false := by
  decide

/-- C2 (code bug): when a consumer owning a registered descriptor raises
from `event()`, the error is logged and `shutdown()` is attempted, but
eviction then reads the nonexistent attribute `self.select` (the field is
named `selector`), so an `AttributeError` escapes `run_one`: the
descriptor is never removed from the consumers table and the reactor
thread terminates instead of continuing to serve other consumers. -/
theorem c2_event_failure_kills_reactor :
    (EventLoop.run_one bEventFail sOwnsFd 5 "").1 =
      some (PyErr.attributeError "select") ∧
    alookup (EventLoop.run_one bEventFail sOwnsFd 5 "").2.2.consumers 5 =
      some 3 ∧
    (EventLoop.run_one bEventFail sOwnsFd 5 "").2.2.trace =
      [Ev.eventCall 3 5, Ev.logError "failure in consumer code",
        Ev.shutdownCall 3] := by
  decide

/-- C4 (code bug): a control-channel read of `b"wake\nquit\n"` is split
into the two lines `wake` and `quit`, but the `wake` branch returns from
inside the line loop, so only the first command is dispatched: `run_one`
reports `False` (keep running) and the `quit` is lost, while the same
`quit` alone makes `run_one` report `True`. -/
theorem c4_only_first_command_dispatched :
    splitlines "wake\nquit\n" = ["wake", "quit"] ∧
    EventLoop.run_one Behavior.quiet EventLoop.init ctrl_r "wake\nquit\n" =
      (none, false, EventLoop.init) ∧
    EventLoop.run_one Behavior.quiet EventLoop.init ctrl_r "quit\n" =
      (none, true, EventLoop.init) := by
  refine ⟨by decide, ?_, by decide⟩
  simp [EventLoop.run_one, EventLoop.run_ctrl_lines, splitlines, splitlinesAux,
    EventLoop.drain_wake, EventLoop.drain_stops, EventLoop.drain_starts,
    EventLoop.drain_notifies, EventLoop.init, ctrl_r]

/-- C5 (code bug): registering consumer 1 under "x" and then registering
consumer 2 under "x" before consumer 1 has been started (it has no
context yet — `contexts` has no entry for it) makes the second
`singleton` call raise `KeyError` at `self.contexts[old]` instead of
completing without error. -/
theorem c5_reregistration_before_start_raises :
    (EventLoop.singleton EventLoop.init "x" 1).1 = none ∧
    alookup (EventLoop.singleton EventLoop.init "x" 1).2.contexts 1 = none ∧
    (EventLoop.singleton (EventLoop.singleton EventLoop.init "x" 1).2 "x" 2).1 =
      some PyErr.keyError := by
  decide

/-- C6 counterexample: evicting consumer 3 from a loop where it is started
succeeds, but evicting it a second time is not a no-op: it raises
`KeyError` (the dict lookup `self.contexts.pop(old)` has no default). -/
theorem c6_double_eviction_raises :
    (EventLoop.evict_consumer sStarted 3).1 = none ∧
    (EventLoop.evict_consumer (EventLoop.evict_consumer sStarted 3).2 3).1 =
      some PyErr.keyError := by
  decide

/-- C6 (amended): evicting a consumer that has no entry in `contexts`
(already evicted, or never started) raises `KeyError` and leaves the
state unchanged; eviction is not idempotent. -/
theorem c6_evict_without_context_keyerror (s : EventLoop) (c : Nat)
    (h : alookup s.contexts c = none) :
    EventLoop.evict_consumer s c = (some PyErr.keyError, s) := by
  unfold EventLoop.evict_consumer
  rw [h]

/-- C6 witness: consumer 9 was never started on a fresh loop, and
evicting it raises `KeyError`. -/
theorem c6_evict_without_context_keyerror_witness :
    alookup EventLoop.init.contexts 9 = none ∧
    EventLoop.evict_consumer EventLoop.init 9 =
      (some PyErr.keyError, EventLoop.init) :=
  ⟨by decide, c6_evict_without_context_keyerror EventLoop.init 9 (by decide)⟩

theorem alookup_aerase_self {α β : Type} [DecidableEq α] {l : List (α × β)}
    {k : α} (hn : (l.map Prod.fst).Nodup) : alookup (aerase l k) k = none := by
  rw [alookup_eq_none]
  intro hmem
  rw [List.mem_map] at hmem
  obtain ⟨p, hp, hpk⟩ := hmem
  exact ne_key_of_mem_aerase hn hp hpk

/-- C7 counterexample: the to-stop drain processes the entry for consumer
3 — its `shutdown()` is called — even though the singleton registry is
empty at processing time; the entry is not skipped. -/
theorem c7_stale_stop_entry_processed :
    sStopNoName.singletons = [] ∧
    (EventLoop.drain_stops Behavior.quiet sStopNoName).2.trace =
      [Ev.shutdownCall 3] := by
  constructor
  · rfl
  · simp [EventLoop.drain_stops, sStopNoName, EventLoop.init, Behavior.quiet,
      EventLoop.stop_one, EventLoop.evict_consumer, alookup, aerase, markEvicted]

/-- C7 (amended): the drains perform no Singleton Registry check — an
entry is processed regardless of registration, as the counterexample
shows.  What the code provides instead: a successful `evict_consumer`
purges the evicted consumer from every pending notify entry, from the
singleton registry and from `contexts`, so entries of an evicted consumer
are removed at eviction time rather than skipped at drain time. -/
theorem c7_eviction_purges_pending_entries (s : EventLoop) (old : Nat)
    (hn : (s.contexts.map Prod.fst).Nodup)
    (h : (EventLoop.evict_consumer s old).1 = none) :
    (∀ p ∈ (EventLoop.evict_consumer s old).2.notifiables, p.1 ≠ old) ∧
    (∀ p ∈ (EventLoop.evict_consumer s old).2.singletons, p.2 ≠ old) ∧
    alookup (EventLoop.evict_consumer s old).2.contexts old = none := by
  cases hlk : alookup s.contexts old with
  | none =>
    exfalso
    unfold EventLoop.evict_consumer at h
    rw [hlk] at h
    simp at h
  | some cid =>
    by_cases hany : (s.consumers.any fun p => decide (p.2 = old)) = true
    · exfalso
      unfold EventLoop.evict_consumer at h
      rw [hlk] at h
      simp [hany] at h
    · have hres : EventLoop.evict_consumer s old =
          (none, { s with
            contexts := aerase s.contexts old
            heap := markEvicted s.heap cid
            singletons := s.singletons.filter (fun p => !(p.2 = old : Bool))
            startables := s.startables.erase old
            stoppables := s.stoppables.erase old
            notifiables := s.notifiables.filter (fun p => !(p.1 = old : Bool)) }) := by
        unfold EventLoop.evict_consumer
        rw [hlk]
        simp [hany]
      rw [hres]
      refine ⟨?_, ?_, ?_⟩
      · intro p hp
        have h2 := List.mem_filter.mp hp
        simpa using h2.2
      · intro p hp
        have h2 := List.mem_filter.mp hp
        simpa using h2.2
      · exact alookup_aerase_self hn

/-- C7 witness: evicting the started consumer 3 from `sRichStarted`
succeeds and leaves no `contexts` entry for it. -/
theorem c7_eviction_purges_pending_entries_witness :
    (EventLoop.evict_consumer sRichStarted 3).1 = none ∧
    alookup (EventLoop.evict_consumer sRichStarted 3).2.contexts 3 = none :=
  ⟨by decide,
    (c7_eviction_purges_pending_entries sRichStarted 3 (by decide)
      (by decide)).2.2⟩

/-- C8: every operation on an evicted `LoopContext` — register, modify,
unregister, shut_me_down, notify_me — returns without raising, without
touching the selector, and without changing any reactor state. -/
theorem c8_evicted_context_operations_noop (s : EventLoop) (cid : Nat)
    (ctx : Ctx) (f : Nat) (m : String) (hc : alookup s.heap cid = some ctx)
    (he : ctx.evicted = true) :
    LoopContext.register s cid f = (none, s) ∧
    LoopContext.modify s cid f = (none, s) ∧
    LoopContext.unregister s cid f = (none, s) ∧
    LoopContext.shut_me_down s cid = s ∧
    LoopContext.notify_me s cid m = s := by
  unfold LoopContext.register LoopContext.modify LoopContext.unregister
    LoopContext.shut_me_down LoopContext.notify_me
  rw [hc]
  simp [he]

/-- C8 witness: all five operations on the evicted context of
`sEvictedCtx` leave the loop untouched. -/
theorem c8_evicted_context_operations_noop_witness :
    alookup sEvictedCtx.heap 0 = some (Ctx.mk 3 true) ∧
    (Ctx.mk 3 true).evicted = true ∧
    (LoopContext.register sEvictedCtx 0 5 = (none, sEvictedCtx) ∧
      LoopContext.modify sEvictedCtx 0 5 = (none, sEvictedCtx) ∧
      LoopContext.unregister sEvictedCtx 0 5 = (none, sEvictedCtx) ∧
      LoopContext.shut_me_down sEvictedCtx 0 = sEvictedCtx ∧
      LoopContext.notify_me sEvictedCtx 0 "m" = sEvictedCtx) :=
  ⟨by decide, by decide,
    c8_evicted_context_operations_noop sEvictedCtx 0 (Ctx.mk 3 true) 5 "m"
      (by decide) (by decide)⟩

/-- C10: once the loop is closed, `shut_me_down` on a live (non-evicted)
context returns with the state unchanged — no queue entry, no wake byte,
and no log line — whereas `notify_me` in the same situation logs a
warning about the dropped request. -/
theorem c10_shut_me_down_silent_after_close (s : EventLoop) (cid : Nat)
    (ctx : Ctx) (m : String) (hc : alookup s.heap cid = some ctx)
    (he : ctx.evicted = false) (hcl : s.closed = true) :
    LoopContext.shut_me_down s cid = s ∧
    LoopContext.notify_me s cid m =
      { s with trace := s.trace ++
          [Ev.logWarning "dropping notify_me() while event loop is closed"] } := by
  unfold LoopContext.shut_me_down LoopContext.notify_me
  rw [hc]
  simp [he, hcl]

/-- C10 witness: on the closed loop `sClosedLive`, `shut_me_down` is a
silent no-op and `notify_me` appends exactly the warning line. -/
theorem c10_shut_me_down_silent_after_close_witness :
    alookup sClosedLive.heap 0 = some (Ctx.mk 3 false) ∧
    sClosedLive.closed = true ∧
    (LoopContext.shut_me_down sClosedLive 0 = sClosedLive ∧
      LoopContext.notify_me sClosedLive 0 "m" =
        { sClosedLive with trace := sClosedLive.trace ++
            [Ev.logWarning "dropping notify_me() while event loop is closed"] }) :=
  ⟨by decide, by decide,
    c10_shut_me_down_silent_after_close sClosedLive 0 (Ctx.mk 3 false) "m"
      (by decide) (by decide) (by decide)⟩

theorem drain_notifies_reverse (b : Behavior) :
    ∀ (n : Nat) (t : EventLoop), t.notifiables.length = n →
      (∀ p ∈ t.notifiables, b.notifyFails p.1 p.2 = false) →
      EventLoop.drain_notifies b t =
        (none, { t with notifiables := []
                        trace := t.trace ++
                          (t.notifiables.map
                            (fun p => Ev.notifyCall p.1 p.2)).reverse }) := by
  intro n
  induction n using Nat.strong_induction_on with
  | _ n ih =>
    intro t hlen hok
    unfold EventLoop.drain_notifies
    split
    next hl =>
      have hnil : t.notifiables = [] := List.getLast?_eq_none_iff.mp hl
      cases t
      simp_all
    next cm hl =>
      have hsplit := List.dropLast_append_getLast? cm (Option.mem_def.mpr hl)
      have hmem : cm ∈ t.notifiables := by
        rw [← hsplit]
        exact List.mem_append_right _ (List.mem_singleton_self _)
      have hfail := hok cm hmem
      split
      next e s2 h2 =>
        unfold EventLoop.notify_one at h2
        simp [hfail] at h2
      next s2 h2 =>
        unfold EventLoop.notify_one at h2
        simp only [hfail, Bool.false_eq_true, if_false, Prod.mk.injEq,
          true_and] at h2
        have hne : t.notifiables ≠ [] := by
          intro he
          rw [he] at hl
          simp at hl
        have hlt : t.notifiables.dropLast.length < n := by
          have hpos : 0 < t.notifiables.length := List.length_pos.mpr hne
          rw [List.length_dropLast]
          omega
        subst h2
        have hrec := ih _ hlt
          { t with notifiables := t.notifiables.dropLast
                   trace := t.trace ++ [Ev.notifyCall cm.1 cm.2] } rfl
          (by
            intro p hp
            exact hok p (List.dropLast_sublist _ |>.mem hp))
        rw [hrec]
        simp only [Prod.mk.injEq, true_and]
        congr 1
        conv_rhs => rw [← hsplit]
        simp [List.append_assoc]

/-- C3 counterexample: with `notify_me` entries appended in the order
("a" then "b") for consumer 7, the drain invokes `notify("b")` strictly
before `notify("a")` — `list.pop()` takes from the tail — refuting the
claimed FIFO order. -/
theorem c3_notify_order_counterexample :
    sNotifyAB.notifiables = [(7, "a"), (7, "b")] ∧
    (EventLoop.drain_notifies Behavior.quiet sNotifyAB).2.trace =
      [Ev.notifyCall 7 "b", Ev.notifyCall 7 "a"] ∧
    [Ev.notifyCall 7 "b", Ev.notifyCall 7 "a"] ≠
      [Ev.notifyCall 7 "a", Ev.notifyCall 7 "b"] := by
  refine ⟨rfl, ?_, by decide⟩
  rw [drain_notifies_reverse Behavior.quiet sNotifyAB.notifiables.length
    sNotifyAB rfl (by decide)]
  decide

/-- C3 (amended): each pending queue is drained from the tail (LIFO):
when no callback fails, the entries of the to-notify queue are delivered
in reverse order of appending, so `notify_me("a")` followed by
`notify_me("b")` yields `notify("b")` strictly before `notify("a")` in
the same drain. -/
theorem c3_drain_notifies_lifo (b : Behavior) (s : EventLoop)
    (hok : ∀ p ∈ s.notifiables, b.notifyFails p.1 p.2 = false) :
    EventLoop.drain_notifies b s =
      (none, { s with notifiables := []
                      trace := s.trace ++
                        (s.notifiables.map
                          (fun p => Ev.notifyCall p.1 p.2)).reverse }) :=
  drain_notifies_reverse b s.notifiables.length s rfl hok

/-- C3 witness: the amended theorem applied to the queue holding "a" then
"b" for consumer 7 under a never-failing behaviour. -/
theorem c3_drain_notifies_lifo_witness :
    EventLoop.drain_notifies Behavior.quiet sNotifyAB =
      (none, { sNotifyAB with notifiables := []
                              trace := sNotifyAB.trace ++
                                (sNotifyAB.notifiables.map
                                  (fun p => Ev.notifyCall p.1 p.2)).reverse }) :=
  c3_drain_notifies_lifo Behavior.quiet sNotifyAB (by decide)
